import Mathlib

/-!
Verification development for the Quest-Learn backend attempt lifecycle:
shallow embedding of the attempt/response data model and of the request
handlers in app/api/v1/attempts.py, with the grading queries they run,
followed by theorems settling the specification claims about them.

Datetimes are modelled as integers (seconds); the SQL store is modelled
as explicit lists of rows threaded through each operation.
-/

deriving instance DecidableEq for Except

namespace QuestLearn

/-- Enumeration QuestionOption from app/models/question.py. -/
inductive QOption
  | A
  | B
  | C
  | D
deriving DecidableEq

/-- String value of a QuestionOption (the .value attribute of the Python enum). -/
def QOption.value : QOption → String
  | .A => "A"
  | .B => "B"
  | .C => "C"
  | .D => "D"

/-- Enumeration UserRole from app/models/user.py (exactly two roles). -/
inductive UserRole
  | TEACHER
  | STUDENT
deriving DecidableEq

/-- Enumeration AttemptStatus from app/models/attempt.py.
SUBMITTED and LATE are the terminal statuses. -/
inductive AttemptStatus
  | IN_PROGRESS
  | SUBMITTED
  | LATE
deriving DecidableEq

/-- User row (app/models/user.py), restricted to the fields the attempt
endpoints read. -/
structure User where
  id : Nat
  role : UserRole
  full_name : String
deriving DecidableEq

/-- Assignment row (app/models/assignment.py), restricted to the fields the
attempt endpoints read. opens_at and due_at are nullable timestamps. -/
structure Assignment where
  id : Nat
  classroom_id : Nat
  title : String
  opens_at : Option Int
  due_at : Option Int
  created_by : Nat
deriving DecidableEq

/-- Method Assignment.is_open from app/models/assignment.py: open iff now is
not before opens_at and not after due_at, null bounds meaning unbounded. -/
def Assignment.is_open (a : Assignment) (now : Int) : Bool :=
  if (match a.opens_at with | some o => decide (now < o) | none => false) then false
  else if (match a.due_at with | some d => decide (now > d) | none => false) then false
  else true

/-- Question row (app/models/question.py). -/
structure Question where
  id : Nat
  assignment_id : Nat
  prompt_text : Option String
  image_url : String
  option_a : String
  option_b : String
  option_c : String
  option_d : String
  correct_option : QOption
  per_question_seconds : Nat
  points : Nat
  order_index : Nat
deriving DecidableEq

/-- Attempt row (app/models/attempt.py). Column defaults (used when the
handler constructs Attempt(assignment_id=..., student_id=...)): total_score 0,
max_possible_score 0, status IN_PROGRESS, started_at set by the server clock,
submitted_at null. -/
structure Attempt where
  id : Nat
  assignment_id : Nat
  student_id : Nat
  started_at : Int
  submitted_at : Option Int
  total_score : Nat
  max_possible_score : Nat
  status : AttemptStatus
deriving DecidableEq

/-- Response row (app/models/attempt.py): one answer of one attempt to one
question; unique per (attempt_id, question_id); answered_at has a
server-side default set at insertion and is never assigned by the handlers. -/
structure Response where
  attempt_id : Nat
  question_id : Nat
  chosen_option : String
  is_correct : Bool
  time_taken_seconds : Nat
  answered_at : Int
deriving DecidableEq

/-- The database state read and written by the attempt endpoints. -/
structure DB where
  assignments : List Assignment
  questions : List Question
  attempts : List Attempt
  responses : List Response
  users : List User
deriving DecidableEq

/-- An HTTPException carried to the caller: status code plus detail string. -/
structure Err where
  code : Nat
  detail : String
deriving DecidableEq

/-- SQL SUM of a numeric column over a list of rows. -/
def sumBy {α : Type} (f : α → Nat) (l : List α) : Nat :=
  (l.map f).sum

/-- Insertion step of the ORDER BY embedding. -/
def insertByKey {α : Type} (key : α → Nat) (x : α) : List α → List α
  | [] => [x]
  | y :: ys => if key x ≤ key y then x :: y :: ys else y :: insertByKey key x ys

/-- ORDER BY key ASC over a list of rows (stable insertion sort). -/
def sortByKey {α : Type} (key : α → Nat) : List α → List α
  | [] => []
  | x :: xs => insertByKey key x (sortByKey key xs)

/-- Payload for one question returned by the start endpoint: every stored
field except correct_option (the handler hides the correct answer). -/
structure QuestionPayload where
  id : Nat
  prompt_text : Option String
  image_url : String
  option_a : String
  option_b : String
  option_c : String
  option_d : String
  per_question_seconds : Nat
  points : Nat
  order_index : Nat
deriving DecidableEq

/-- Build the payload of one question, dropping correct_option. -/
def Question.toPayload (q : Question) : QuestionPayload :=
  { id := q.id
    prompt_text := q.prompt_text
    image_url := q.image_url
    option_a := q.option_a
    option_b := q.option_b
    option_c := q.option_c
    option_d := q.option_d
    per_question_seconds := q.per_question_seconds
    points := q.points
    order_index := q.order_index }

/-- Response body of the start endpoint. The schema class StartAttemptResponse
is imported by the handler but not defined in the repository; its two fields
are reconstructed from the construction site in start_attempt. -/
structure StartAttemptResponse where
  attempt_id : Nat
  questions : List QuestionPayload
deriving DecidableEq

/-- Questions of an assignment as the start endpoint returns them: filtered by
assignment, ordered by order_index, correct_option stripped. -/
def startQuestions (db : DB) (assignment_id : Nat) : List QuestionPayload :=
  (sortByKey (fun q => q.order_index)
    (db.questions.filter (fun q => q.assignment_id == assignment_id))).map Question.toPayload

/-- Handler start_attempt (POST /attempts/start/:assignment_id) from
app/api/v1/attempts.py. fresh_id is the primary key the store assigns to a
newly inserted attempt; now is the server clock. -/
def start_attempt (assignment_id : Nat) (user : User) (now : Int) (fresh_id : Nat)
    (db : DB) : Except Err (StartAttemptResponse × DB) :=
  if user.role ≠ UserRole.STUDENT then
    .error ⟨403, "Only students can start attempts"⟩
  else
    match db.assignments.find? (fun a => a.id == assignment_id) with
    | none => .error ⟨404, "assignment not found"⟩
    | some _a =>
      match db.attempts.find? (fun t => t.assignment_id == assignment_id && t.student_id == user.id) with
      | some existing =>
        .ok ({ attempt_id := existing.id, questions := startQuestions db assignment_id }, db)
      | none =>
        let att : Attempt :=
          { id := fresh_id
            assignment_id := assignment_id
            student_id := user.id
            started_at := now
            submitted_at := none
            total_score := 0
            max_possible_score := 0
            status := AttemptStatus.IN_PROGRESS }
        let db1 : DB := { db with attempts := db.attempts ++ [att] }
        .ok ({ attempt_id := att.id, questions := startQuestions db1 assignment_id }, db1)

/-- Request body of the answer endpoint. The schema class AnswerRequest is
imported by the handler but not defined in the repository. -/
structure AnswerRequest where
  question_id : Nat
  chosen_option : String
  time_taken_seconds : Nat
deriving DecidableEq

/-- Modelled from the spec: the AnswerRequest schema (missing from the
repository sources) validates chosen_option to be one of A, B, C, D, and an
out-of-range option is rejected as InvalidOption before the handler body
runs, leaving the store untouched. -/
def AnswerRequest.validChosenOption (p : AnswerRequest) : Bool :=
  ["A", "B", "C", "D"].contains p.chosen_option

/-- JSON body returned by the answer endpoint. -/
structure AnswerResult where
  message : String
  auto_submitted : Bool
deriving DecidableEq

/-- The in-place update the answer handler applies to an existing Response
row: chosen_option, is_correct and time_taken_seconds are assigned; the other
columns (in particular answered_at) are not touched. -/
def updatedResponse (r : Response) (payload : AnswerRequest) (correct : Bool) : Response :=
  { r with
      chosen_option := payload.chosen_option
      is_correct := correct
      time_taken_seconds := payload.time_taken_seconds }

/-- The Response row the answer handler inserts when none exists yet for the
(attempt, question) pair; answered_at takes the server-side default now. -/
def newResponse (att_id q_id : Nat) (payload : AnswerRequest) (correct : Bool)
    (now : Int) : Response :=
  { attempt_id := att_id
    question_id := q_id
    chosen_option := payload.chosen_option
    is_correct := correct
    time_taken_seconds := payload.time_taken_seconds
    answered_at := now }

/-- The upsert step of the answer handler: update the existing row for the
(attempt, question) pair when present, insert a fresh row otherwise. -/
def upsertResponses (rs : List Response) (att_id q_id : Nat) (payload : AnswerRequest)
    (correct : Bool) (now : Int) : List Response :=
  if (rs.find? (fun r => r.attempt_id == att_id && r.question_id == q_id)).isSome then
    rs.map (fun r =>
      if r.attempt_id == att_id && r.question_id == q_id then
        updatedResponse r payload correct
      else r)
  else
    rs ++ [newResponse att_id q_id payload correct now]

/-- Writing back a mutated attempt row: the ORM flushes the changed columns of
the row with this primary key. -/
def setAttempt (ts : List Attempt) (i : Nat) (att1 : Attempt) : List Attempt :=
  ts.map (fun t => if t.id == i then att1 else t)

/-- The column assignments both submit paths perform on the attempt row. -/
def submittedAttempt (att : Attempt) (st : AttemptStatus) (now : Int) (score : Nat) : Attempt :=
  { att with status := st, submitted_at := some now, total_score := score }

/-- The SQL aggregate shared by the submit paths: sum of Question.points
joined on Question.id = Response.question_id over the responses of the
attempt having is_correct true. -/
def joinScore (db : DB) (attempt_id : Nat) : Nat :=
  sumBy
    (fun r => sumBy Question.points (db.questions.filter (fun q => q.id == r.question_id)))
    (db.responses.filter (fun r => r.attempt_id == attempt_id && r.is_correct))

/-- COUNT of the questions of an assignment. -/
def countQuestions (db : DB) (assignment_id : Nat) : Nat :=
  (db.questions.filter (fun q => q.assignment_id == assignment_id)).length

/-- COUNT of the responses recorded for an attempt. -/
def countResponses (db : DB) (attempt_id : Nat) : Nat :=
  (db.responses.filter (fun r => r.attempt_id == attempt_id)).length

/-- Handler answer_question (POST /attempts/:attempt_id/answer) from
app/api/v1/attempts.py, including the auto-submit branch. now is the server
clock, also used for the inserted row's answered_at column default. -/
def answer_question (attempt_id : Nat) (payload : AnswerRequest) (user : User)
    (now : Int) (db : DB) : Except Err (AnswerResult × DB) :=
  if ¬ payload.validChosenOption then
    .error ⟨422, "InvalidOption"⟩
  else
    match db.attempts.find? (fun t => t.id == attempt_id && t.student_id == user.id) with
    | none => .error ⟨400, "Invalid attempt"⟩
    | some att =>
      if att.status ≠ AttemptStatus.IN_PROGRESS then
        .error ⟨400, "Invalid attempt"⟩
      else
        match db.questions.find? (fun q => q.id == payload.question_id) with
        | none => .error ⟨404, "question not found"⟩
        | some q =>
          if q.assignment_id ≠ att.assignment_id then
            .error ⟨400, "Question does not belong to this assignment"⟩
          else
            let correct : Bool := payload.chosen_option == q.correct_option.value
            let db1 : DB :=
              { db with responses := upsertResponses db.responses att.id q.id payload correct now }
            if countResponses db1 att.id ≥ countQuestions db1 att.assignment_id then
              let att1 : Attempt :=
                submittedAttempt att AttemptStatus.SUBMITTED now (joinScore db1 att.id)
              let db2 : DB := { db1 with attempts := setAttempt db1.attempts att.id att1 }
              .ok ({ message := "Answer recorded. Assignment completed and submitted automatically!"
                     auto_submitted := true }, db2)
            else
              .ok ({ message := "Answer recorded successfully", auto_submitted := false }, db1)

/-- The late-detection step of the submit handler: LATE when the assignment
row was found, has a due date, and the submission time is strictly after it;
SUBMITTED in every other case. -/
def lateStatus (assignment : Option Assignment) (now : Int) : AttemptStatus :=
  match assignment with
  | some a =>
    match a.due_at with
    | some due => if now > due then AttemptStatus.LATE else AttemptStatus.SUBMITTED
    | none => AttemptStatus.SUBMITTED
  | none => AttemptStatus.SUBMITTED

/-- JSON body returned by the submit endpoint. -/
structure SubmitResult where
  message : String
  status : AttemptStatus
  total_score : Nat
  questions_answered : Nat
  total_questions : Nat
  submitted_at : Int
  is_late : Bool
deriving DecidableEq

/-- Handler submit_attempt (POST /attempts/:attempt_id/submit) from
app/api/v1/attempts.py. -/
def submit_attempt (attempt_id : Nat) (user : User) (now : Int) (db : DB) :
    Except Err (SubmitResult × DB) :=
  match db.attempts.find? (fun t => t.id == attempt_id && t.student_id == user.id) with
  | none => .error ⟨404, "Attempt not found or you don't have permission to access it"⟩
  | some attempt =>
    if attempt.status ≠ AttemptStatus.IN_PROGRESS then
      .error ⟨400, "Attempt is already terminal"⟩
    else if user.role ≠ UserRole.STUDENT then
      .error ⟨403, "Only students can submit attempts"⟩
    else
      let total_score := joinScore db attempt_id
      let st : AttemptStatus :=
        lateStatus (db.assignments.find? (fun a => a.id == attempt.assignment_id)) now
      let attempt1 : Attempt := submittedAttempt attempt st now total_score
      let db1 : DB := { db with attempts := setAttempt db.attempts attempt.id attempt1 }
      .ok ({ message := "Assignment submitted successfully!"
             status := st
             total_score := total_score
             questions_answered := countResponses db attempt_id
             total_questions := countQuestions db attempt.assignment_id
             submitted_at := now
             is_late := st == AttemptStatus.LATE }, db1)

/-- Exact fraction modelling the Python float divisions of the result
endpoint (percentage, minutes). Kept unnormalized so every operation is a
structural computation. -/
structure Frac where
  num : Int
  den : Int
deriving DecidableEq

/-- Division of two integers as a fraction. -/
def Frac.divInt (a b : Int) : Frac := ⟨a, b⟩

/-- Multiplication of a fraction by an integer. -/
def Frac.mulInt (a : Frac) (k : Int) : Frac := ⟨a.num * k, a.den⟩

/-- One entry of the responses array of the result endpoint: the stored
response joined with its question, exposing chosen_option, correct_option,
is_correct and points_earned. -/
structure ResponseView where
  question_id : Nat
  prompt_text : Option String
  option_a : String
  option_b : String
  option_c : String
  option_d : String
  chosen_option : String
  correct_option : String
  is_correct : Bool
  points_earned : Nat
  max_points : Nat
  time_taken_seconds : Nat
  order_index : Nat
deriving DecidableEq

/-- Build one responses entry of the result endpoint from a response row and
its question row. -/
def mkResponseView (r : Response) (q : Question) : ResponseView :=
  { question_id := q.id
    prompt_text := q.prompt_text
    option_a := q.option_a
    option_b := q.option_b
    option_c := q.option_c
    option_d := q.option_d
    chosen_option := r.chosen_option
    correct_option := q.correct_option.value
    is_correct := r.is_correct
    points_earned := if r.is_correct then q.points else 0
    max_points := q.points
    time_taken_seconds := r.time_taken_seconds
    order_index := q.order_index }

/-- The responses array of the result endpoint: responses of the attempt
joined with their questions, ordered by Question.order_index. -/
def resultResponses (db : DB) (attempt_id : Nat) : List ResponseView :=
  sortByKey (fun v => v.order_index)
    ((db.responses.filter (fun r => r.attempt_id == attempt_id)).flatMap
      (fun r => (db.questions.filter (fun q => q.id == r.question_id)).map (mkResponseView r)))

/-- Response body StudentAttemptResult of the result endpoint
(app/schemas/attempt.py). -/
structure StudentAttemptResult where
  attempt_id : Nat
  assignment_id : Nat
  assignment_title : String
  student_id : Nat
  student_name : String
  status : AttemptStatus
  total_score : Nat
  max_possible_score : Nat
  percentage : Frac
  started_at : Int
  submitted_at : Option Int
  time_taken_minutes : Option Frac
  responses : List ResponseView
deriving DecidableEq

/-- Handler get_student_attempt_result (GET /attempts/:attempt_id/result)
from app/api/v1/attempts.py. The 500 branch models the Python attribute
errors raised when the assignment or student row referenced by the attempt is
missing. -/
def get_student_attempt_result (attempt_id : Nat) (user : User) (db : DB) :
    Except Err StudentAttemptResult :=
  match db.attempts.find? (fun t => t.id == attempt_id) with
  | none => .error ⟨404, "Attempt not found"⟩
  | some attempt =>
    let proceed : Except Err Unit :=
      match user.role with
      | UserRole.STUDENT =>
        if attempt.student_id ≠ user.id then
          .error ⟨403, "You can only view your own attempt results"⟩
        else .ok ()
      | UserRole.TEACHER =>
        match db.assignments.find? (fun a => a.id == attempt.assignment_id) with
        | none => .error ⟨403, "You can only view results for assignments you created"⟩
        | some a =>
          if a.created_by ≠ user.id then
            .error ⟨403, "You can only view results for assignments you created"⟩
          else .ok ()
    match proceed with
    | .error e => .error e
    | .ok () =>
      match db.assignments.find? (fun a => a.id == attempt.assignment_id),
            db.users.find? (fun u => u.id == attempt.student_id) with
      | some assignment, some student =>
        let max_possible_score :=
          sumBy Question.points (db.questions.filter (fun q => q.assignment_id == attempt.assignment_id))
        let percentage : Frac :=
          if max_possible_score > 0 then
            (Frac.divInt attempt.total_score max_possible_score).mulInt 100
          else ⟨0, 1⟩
        .ok { attempt_id := attempt.id
              assignment_id := attempt.assignment_id
              assignment_title := assignment.title
              student_id := attempt.student_id
              student_name := student.full_name
              status := attempt.status
              total_score := attempt.total_score
              max_possible_score := max_possible_score
              percentage := percentage
              started_at := attempt.started_at
              submitted_at := attempt.submitted_at
              time_taken_minutes :=
                attempt.submitted_at.map (fun s => Frac.divInt (s - attempt.started_at) 60)
              responses := resultResponses db attempt_id }
      | _, _ => .error ⟨500, "Internal Server Error"⟩

/-- The unique key of a Response row, per the uq_attempt_question_response
constraint. -/
def respKey (r : Response) : Nat × Nat := (r.attempt_id, r.question_id)

/-- Well-formedness of the store, as guaranteed by its primary-key and
uniqueness constraints, its foreign keys together with the
question-belongs-to-assignment check of the answer handler, and the fact that
is_correct is only ever written as the comparison of the chosen option with
the question's correct option. -/
def DB.wf (db : DB) : Prop :=
  db.attempts.Pairwise (fun a b => a.id ≠ b.id) ∧
  db.questions.Pairwise (fun a b => a.id ≠ b.id) ∧
  db.responses.Pairwise (fun r s => respKey r ≠ respKey s) ∧
  (∀ r ∈ db.responses, ∀ t ∈ db.attempts, t.id = r.attempt_id →
    ∃ q ∈ db.questions, q.id = r.question_id ∧ q.assignment_id = t.assignment_id) ∧
  (∀ r ∈ db.responses, ∀ q ∈ db.questions, q.id = r.question_id →
    r.is_correct = (r.chosen_option == q.correct_option.value))

instance (db : DB) : Decidable db.wf := by
  unfold DB.wf
  infer_instance

/-- Look up an attempt row by primary key. -/
def DB.findAttempt (db : DB) (i : Nat) : Option Attempt :=
  db.attempts.find? (fun t => t.id == i)

/-- Number of distinct questions answered within an attempt. -/
def distinctAnswered (db : DB) (attempt_id : Nat) : Nat :=
  (((db.responses.filter (fun r => r.attempt_id == attempt_id)).map
    (fun r => r.question_id)).dedup).length

theorem mem_insertByKey {α : Type} (key : α → Nat) (x a : α) (l : List α) :
    a ∈ insertByKey key x l ↔ a = x ∨ a ∈ l := by
  induction l with
  | nil => simp [insertByKey]
  | cons y ys ih =>
    by_cases h : key x ≤ key y
    · simp [insertByKey, h]
    · simp [insertByKey, h, ih]
      tauto

theorem mem_sortByKey {α : Type} (key : α → Nat) (a : α) (l : List α) :
    a ∈ sortByKey key l ↔ a ∈ l := by
  induction l with
  | nil => simp [sortByKey]
  | cons y ys ih =>
    simp [sortByKey, mem_insertByKey, ih]

theorem sumBy_append {α : Type} (f : α → Nat) (l1 l2 : List α) :
    sumBy f (l1 ++ l2) = sumBy f l1 + sumBy f l2 := by
  simp [sumBy]

theorem sumBy_filter_or {α : Type} (f : α → Nat) (P Q : α → Bool) (l : List α)
    (hdis : ∀ a ∈ l, ¬(P a = true ∧ Q a = true)) :
    sumBy f (l.filter (fun a => P a || Q a)) =
      sumBy f (l.filter P) + sumBy f (l.filter Q) := by
  induction l with
  | nil => rfl
  | cons x xs ih =>
    have hx := hdis x (List.mem_cons_self x xs)
    have ihx := ih (fun a ha => hdis a (List.mem_cons_of_mem x ha))
    by_cases hP : P x = true
    · have hQ : Q x = false := by
        cases hq : Q x
        · rfl
        · exact absurd ⟨hP, hq⟩ hx
      simp [List.filter_cons, hP, hQ, sumBy, ihx, sumBy] at ihx ⊢
      omega
    · have hP' : P x = false := by simpa using hP
      cases hQ : Q x
      · simp [List.filter_cons, hP', hQ, sumBy] at ihx ⊢
        omega
      · simp [List.filter_cons, hP', hQ, sumBy] at ihx ⊢
        omega

theorem eq_of_mem_of_key_eq {α β : Type} (key : α → β) {l : List α}
    (hpw : l.Pairwise (fun a b => key a ≠ key b)) {x y : α}
    (hx : x ∈ l) (hy : y ∈ l) (h : key x = key y) : x = y := by
  induction l with
  | nil => cases hx
  | cons a t ih =>
    have ha := (List.pairwise_cons.mp hpw).1
    have hpt := (List.pairwise_cons.mp hpw).2
    rcases List.mem_cons.mp hx with hx1 | hx1 <;> rcases List.mem_cons.mp hy with hy1 | hy1
    · rw [hx1, hy1]
    · exact absurd h (hx1 ▸ ha y hy1)
    · exact absurd h.symm (hy1 ▸ ha x hx1)
    · exact ih hpt hx1 hy1

theorem findAttempt_of_mem {l : List Attempt}
    (hpw : l.Pairwise (fun a b => a.id ≠ b.id)) {att : Attempt} (hmem : att ∈ l) :
    l.find? (fun t => t.id == att.id) = some att := by
  induction l with
  | nil => cases hmem
  | cons a t ih =>
    have ha := (List.pairwise_cons.mp hpw).1
    have hpt := (List.pairwise_cons.mp hpw).2
    rcases List.mem_cons.mp hmem with h | h
    · rw [h]
      simp [List.find?]
    · have hne : a.id ≠ att.id := ha att h
      have : (a.id == att.id) = false := by simpa using hne
      simp [List.find?, this, ih hpt h]

theorem setAttempt_find {l : List Attempt} {att : Attempt} (hmem : att ∈ l)
    (att1 : Attempt) (hid : att1.id = att.id) :
    (setAttempt l att.id att1).find? (fun t => t.id == att.id) = some att1 := by
  unfold setAttempt
  induction l with
  | nil => cases hmem
  | cons a t ih =>
    by_cases haid : a.id = att.id
    · have h1 : (a.id == att.id) = true := by simpa using haid
      have h2 : (att1.id == att.id) = true := by simpa using hid
      simp only [List.map_cons, h1, if_true, List.find?_cons, h2]
    · have h1 : (a.id == att.id) = false := by simpa using haid
      have hmem' : att ∈ t := by
        rcases List.mem_cons.mp hmem with h | h
        · exact absurd (h ▸ rfl) haid
        · exact h
      simp only [List.map_cons, h1, Bool.false_eq_true, if_false, List.find?_cons, h1]
      exact ih hmem'

theorem length_filter_map_of_pred {α : Type} (g : α → α) (p : α → Bool) (l : List α)
    (h : ∀ a, p (g a) = p a) :
    ((l.map g).filter p).length = (l.filter p).length := by
  induction l with
  | nil => rfl
  | cons x xs ih =>
    by_cases hx : p x = true
    · simp [List.filter_cons, h x, hx, ih]
    · have hx' : p x = false := by simpa using hx
      simp [List.filter_cons, h x, hx', ih]

theorem nodup_qids_filter {l : List Response}
    (hpw : l.Pairwise (fun r s => respKey r ≠ respKey s)) (p : Response → Bool)
    {aid : Nat} (hp : ∀ r, p r = true → r.attempt_id = aid) :
    ((l.filter p).map (fun r => r.question_id)).Nodup := by
  have h1 : (l.filter p).Pairwise (fun r s => respKey r ≠ respKey s) := hpw.filter p
  have h2 : (l.filter p).Pairwise (fun r s => r.question_id ≠ s.question_id) := by
    refine h1.imp_of_mem (fun ha hb hr => ?_)
    intro hq
    apply hr
    have hpa := (List.mem_filter.mp ha).2
    have hpb := (List.mem_filter.mp hb).2
    unfold respKey
    rw [hp _ hpa, hp _ hpb, hq]
  exact List.pairwise_map.mpr h2

theorem respKey_updatedResponse (r : Response) (p : AnswerRequest) (c : Bool) :
    respKey (updatedResponse r p c) = respKey r := rfl

theorem pairwise_upsertResponses (rs : List Response) (aid qid : Nat)
    (p : AnswerRequest) (c : Bool) (now : Int)
    (hpw : rs.Pairwise (fun r s => respKey r ≠ respKey s)) :
    (upsertResponses rs aid qid p c now).Pairwise (fun r s => respKey r ≠ respKey s) := by
  unfold upsertResponses
  split
  · refine List.pairwise_map.mpr (hpw.imp ?_)
    intro a b hab
    by_cases ha : (a.attempt_id == aid && a.question_id == qid) = true <;>
      by_cases hb : (b.attempt_id == aid && b.question_id == qid) = true <;>
        simp [ha, hb, respKey_updatedResponse, hab]
  · rename_i hnone
    have hnone' : rs.find? (fun r => r.attempt_id == aid && r.question_id == qid) = none := by
      cases h : rs.find? (fun r => r.attempt_id == aid && r.question_id == qid)
      · rfl
      · rw [h] at hnone
        simp at hnone
    have hall := List.find?_eq_none.mp hnone'
    refine List.pairwise_append.mpr ⟨hpw, List.pairwise_singleton _ _, ?_⟩
    intro a ha b hb
    rw [List.mem_singleton.mp hb]
    intro hkey
    apply hall a ha
    have h1 : a.attempt_id = aid := congrArg Prod.fst hkey
    have h2 : a.question_id = qid := congrArg Prod.snd hkey
    simp [h1, h2, newResponse]

theorem mem_upsertResponses (rs : List Response) (aid qid : Nat)
    (p : AnswerRequest) (c : Bool) (now : Int) (r : Response)
    (hr : r ∈ upsertResponses rs aid qid p c now) :
    r ∈ rs ∨
      (∃ r0 ∈ rs, (r0.attempt_id == aid && r0.question_id == qid) = true ∧
        r = updatedResponse r0 p c) ∨
      r = newResponse aid qid p c now := by
  unfold upsertResponses at hr
  split at hr
  · rcases List.mem_map.mp hr with ⟨r0, hr0, heq⟩
    by_cases hm : (r0.attempt_id == aid && r0.question_id == qid) = true
    · right; left
      exact ⟨r0, hr0, hm, by rw [← heq, hm]; simp⟩
    · left
      have hm' : (r0.attempt_id == aid && r0.question_id == qid) = false := by simpa using hm
      rw [← heq, hm']
      simpa using hr0
  · rcases List.mem_append.mp hr with h | h
    · exact Or.inl h
    · right; right
      exact List.mem_singleton.mp h

theorem keyMatch_updatedResponse (r : Response) (p : AnswerRequest) (c : Bool) (aid qid : Nat) :
    ((updatedResponse r p c).attempt_id == aid && (updatedResponse r p c).question_id == qid) =
      (r.attempt_id == aid && r.question_id == qid) := rfl

theorem no_tail_key_match {x : Response} {xs : List Response} {aid qid : Nat}
    (ha : ∀ s ∈ xs, respKey x ≠ respKey s)
    (hx : (x.attempt_id == aid && x.question_id == qid) = true) :
    ∀ s ∈ xs, (s.attempt_id == aid && s.question_id == qid) = false := by
  intro s hs
  by_contra hcon
  have hs' : (s.attempt_id == aid && s.question_id == qid) = true := by
    cases h : (s.attempt_id == aid && s.question_id == qid)
    · exact absurd h hcon
    · rfl
  have h1 := (Bool.and_eq_true _ _).mp hx
  have h2 := (Bool.and_eq_true _ _).mp hs'
  apply ha s hs
  unfold respKey
  rw [eq_of_beq h1.1, eq_of_beq h1.2, eq_of_beq h2.1, eq_of_beq h2.2]

theorem filter_mapUpdate_of_find {rs : List Response} {aid qid : Nat}
    (p : AnswerRequest) (c : Bool) {r0 : Response}
    (hpw : rs.Pairwise (fun r s => respKey r ≠ respKey s))
    (hex : rs.find? (fun r => r.attempt_id == aid && r.question_id == qid) = some r0) :
    (rs.map (fun r =>
        if r.attempt_id == aid && r.question_id == qid then updatedResponse r p c else r)).filter
        (fun r => r.attempt_id == aid && r.question_id == qid) =
      [updatedResponse r0 p c] := by
  induction rs with
  | nil => cases hex
  | cons x xs ih =>
    have ha := (List.pairwise_cons.mp hpw).1
    have hpt := (List.pairwise_cons.mp hpw).2
    by_cases hx : (x.attempt_id == aid && x.question_id == qid) = true
    · have hx0 : r0 = x := by
        rw [List.find?_cons, hx] at hex
        exact (Option.some.inj hex).symm
      have htail := no_tail_key_match ha hx
      have hmap : xs.map (fun r =>
          if r.attempt_id == aid && r.question_id == qid then updatedResponse r p c else r) = xs := by
        have := List.map_congr_left (l := xs)
          (f := fun r =>
            if r.attempt_id == aid && r.question_id == qid then updatedResponse r p c else r)
          (g := id) (fun s hs => by simp [htail s hs])
        rw [this, List.map_id]
      have hfilt : xs.filter (fun r => r.attempt_id == aid && r.question_id == qid) = [] := by
        rw [List.filter_eq_nil_iff]
        intro s hs
        rw [htail s hs]
        simp
      simp only [List.map_cons, hx, if_true, hmap, List.filter_cons]
      rw [keyMatch_updatedResponse, hx, hx0, hfilt]
      simp
    · have hx' : (x.attempt_id == aid && x.question_id == qid) = false := by simpa using hx
      have hex' : xs.find? (fun r => r.attempt_id == aid && r.question_id == qid) = some r0 := by
        rw [List.find?_cons, hx'] at hex
        exact hex
      simp only [List.map_cons, hx', Bool.false_eq_true, if_false, List.filter_cons]
      exact ih hpt hex'

theorem filter_upsert_update (rs : List Response) (aid qid : Nat)
    (p : AnswerRequest) (c : Bool) (now : Int) (r0 : Response)
    (hpw : rs.Pairwise (fun r s => respKey r ≠ respKey s))
    (hex : rs.find? (fun r => r.attempt_id == aid && r.question_id == qid) = some r0) :
    (upsertResponses rs aid qid p c now).filter
        (fun r => r.attempt_id == aid && r.question_id == qid) =
      [updatedResponse r0 p c] := by
  unfold upsertResponses
  rw [hex]
  simp only [Option.isSome_some, if_true]
  exact filter_mapUpdate_of_find p c hpw hex

theorem upsert_eq_append_of_none (rs : List Response) (aid qid : Nat)
    (p : AnswerRequest) (c : Bool) (now : Int)
    (hnone : rs.find? (fun r => r.attempt_id == aid && r.question_id == qid) = none) :
    upsertResponses rs aid qid p c now = rs ++ [newResponse aid qid p c now] := by
  unfold upsertResponses
  rw [hnone]
  simp

theorem filter_upsert_append (rs : List Response) (aid qid : Nat)
    (p : AnswerRequest) (c : Bool) (now : Int)
    (hnone : rs.find? (fun r => r.attempt_id == aid && r.question_id == qid) = none) :
    (upsertResponses rs aid qid p c now).filter
        (fun r => r.attempt_id == aid && r.question_id == qid) =
      [newResponse aid qid p c now] := by
  unfold upsertResponses
  rw [hnone]
  simp only [Option.isSome_none, Bool.false_eq_true, if_false]
  rw [List.filter_append]
  have h1 : rs.filter (fun r => r.attempt_id == aid && r.question_id == qid) = [] := by
    rw [List.filter_eq_nil_iff]
    intro s hs
    have := List.find?_eq_none.mp hnone s hs
    simpa using this
  rw [h1]
  simp [newResponse]

/-- The store after the upsert step of the answer handler (its local db1). -/
def answerDB1 (db : DB) (att : Attempt) (q : Question) (payload : AnswerRequest)
    (now : Int) : DB :=
  { db with responses :=
      (upsertResponses db.responses att.id q.id payload
        (payload.chosen_option == q.correct_option.value) now) }

/-- The store after the auto-submit branch of the answer handler (its db2). -/
def answerAutoDB (db : DB) (att : Attempt) (q : Question) (payload : AnswerRequest)
    (now : Int) : DB :=
  let db1 := answerDB1 db att q payload now
  { db1 with
      attempts := setAttempt db1.attempts att.id
        (submittedAttempt att AttemptStatus.SUBMITTED now (joinScore db1 att.id)) }

/-- Inversion of a successful answer_question call: the guards all passed,
the responses were upserted, and the result and final store are determined by
whether the auto-submit count condition held. -/
theorem answer_question_ok_inv (attempt_id : Nat) (payload : AnswerRequest) (user : User)
    (now : Int) (db : DB) (res : AnswerResult) (db2 : DB)
    (hok : answer_question attempt_id payload user now db = .ok (res, db2)) :
    payload.validChosenOption = true ∧
    ∃ att q,
      db.attempts.find? (fun t => t.id == attempt_id && t.student_id == user.id) = some att ∧
      att.status = AttemptStatus.IN_PROGRESS ∧
      db.questions.find? (fun x => x.id == payload.question_id) = some q ∧
      q.assignment_id = att.assignment_id ∧
      db2.responses = (upsertResponses db.responses att.id q.id payload
        (payload.chosen_option == q.correct_option.value) now) ∧
      ((countResponses (answerDB1 db att q payload now) att.id ≥
          countQuestions (answerDB1 db att q payload now) att.assignment_id →
        res = ⟨"Answer recorded. Assignment completed and submitted automatically!", true⟩ ∧
        db2 = answerAutoDB db att q payload now) ∧
       (¬ (countResponses (answerDB1 db att q payload now) att.id ≥
            countQuestions (answerDB1 db att q payload now) att.assignment_id) →
        res = ⟨"Answer recorded successfully", false⟩ ∧
        db2 = answerDB1 db att q payload now)) := by
  unfold answer_question at hok
  split at hok
  · exact Except.noConfusion hok
  · rename_i hnv
    have hv : payload.validChosenOption = true := by
      cases h : payload.validChosenOption
      · exact absurd (by simp [h]) hnv
      · rfl
    refine ⟨hv, ?_⟩
    split at hok
    · exact Except.noConfusion hok
    · rename_i att hfind
      split at hok
      · exact Except.noConfusion hok
      · rename_i hstat'
        have hstat : att.status = AttemptStatus.IN_PROGRESS := not_not.mp hstat'
        split at hok
        · exact Except.noConfusion hok
        · rename_i q hq
          split at hok
          · exact Except.noConfusion hok
          · rename_i hasg'
            have hasg : q.assignment_id = att.assignment_id := not_not.mp hasg'
            refine ⟨att, q, hfind, hstat, hq, hasg, ?_⟩
            unfold answerAutoDB answerDB1
            dsimp only
            dsimp only at hok
            split at hok
            · rename_i hcond
              have hpr := Except.ok.inj hok
              have h1 := congrArg Prod.fst hpr
              have h2 := congrArg Prod.snd hpr
              exact ⟨congrArg DB.responses h2.symm, fun _ => ⟨h1.symm, h2.symm⟩,
                fun hn => absurd hcond hn⟩
            · rename_i hcond
              have hpr := Except.ok.inj hok
              have h1 := congrArg Prod.fst hpr
              have h2 := congrArg Prod.snd hpr
              exact ⟨congrArg DB.responses h2.symm, fun hy => absurd hy hcond,
                fun _ => ⟨h1.symm, h2.symm⟩⟩

/-- The questions of an assignment are unaffected by the upsert step. -/
theorem countQuestions_answerDB1 (db : DB) (att : Attempt) (q : Question)
    (payload : AnswerRequest) (now : Int) (assignment_id : Nat) :
    countQuestions (answerDB1 db att q payload now) assignment_id =
      countQuestions db assignment_id := rfl

/-- When a row for the (attempt, question) pair already exists, the upsert
step replaces it in place and the response count of the attempt is
unchanged. -/
theorem countResponses_answerDB1_of_found (db : DB) (att : Attempt) (q : Question)
    (payload : AnswerRequest) (now : Int)
    (hfk : (db.responses.find?
      (fun r => r.attempt_id == att.id && r.question_id == q.id)).isSome = true) :
    countResponses (answerDB1 db att q payload now) att.id = countResponses db att.id := by
  unfold countResponses answerDB1 upsertResponses
  rw [hfk]
  simp only [if_true]
  exact length_filter_map_of_pred _ _ _ (fun r => by
    by_cases h : (r.attempt_id == att.id && r.question_id == q.id) = true <;>
      simp [h, updatedResponse])

/-- Forward evaluation of answer_question in the non-auto-submit case: all
guards pass and the recorded count stays below the question count, so the
call records the answer and reports auto_submitted false. -/
theorem answer_question_eval (attempt_id : Nat) (payload : AnswerRequest) (user : User)
    (now : Int) (db : DB) (att : Attempt) (q : Question)
    (hv : payload.validChosenOption = true)
    (hfind : db.attempts.find? (fun t => t.id == attempt_id && t.student_id == user.id) = some att)
    (hstat : att.status = AttemptStatus.IN_PROGRESS)
    (hq : db.questions.find? (fun x => x.id == payload.question_id) = some q)
    (hasg : q.assignment_id = att.assignment_id)
    (hlt : ¬ (countResponses (answerDB1 db att q payload now) att.id ≥
        countQuestions (answerDB1 db att q payload now) att.assignment_id)) :
    answer_question attempt_id payload user now db =
      .ok (⟨"Answer recorded successfully", false⟩, answerDB1 db att q payload now) := by
  unfold answer_question
  rw [hfind, hq]
  unfold answerDB1 at hlt ⊢
  simp only [hv, hstat, hasg, not_true, Bool.true_eq_false, if_neg, ne_eq,
    not_false_eq_true, if_false, reduceCtorEq]
  rw [if_neg hlt]

/-! Concrete rows used by the witnesses and counterexamples. -/

/-- A student user. -/
def stu : User := ⟨5, UserRole.STUDENT, "Stu Dent"⟩

/-- The teacher who created the fixture assignments. -/
def tea : User := ⟨9, UserRole.TEACHER, "Tea Cher"⟩

/-- A two-question assignment due at time 50. -/
def hw : Assignment := ⟨1, 2, "HW1", none, some 50, 9⟩

/-- First question of hw: correct option B, 1 point, order 1. -/
def q1 : Question := ⟨10, 1, none, "img1", "a1", "b1", "c1", "d1", QOption.B, 30, 1, 1⟩

/-- Second question of hw: correct option A, 2 points, order 2. -/
def q2 : Question := ⟨11, 1, none, "img2", "a2", "b2", "c2", "d2", QOption.A, 30, 2, 2⟩

/-- Store with hw and its questions and no attempt yet. -/
def dbBase : DB := ⟨[hw], [q1, q2], [], [], [stu, tea]⟩

/-- An in-progress attempt of stu on hw. -/
def attP : Attempt := ⟨100, 1, 5, 0, none, 0, 0, AttemptStatus.IN_PROGRESS⟩

/-- Store with the in-progress attempt and no responses. -/
def dbProg : DB := ⟨[hw], [q1, q2], [attP], [], [stu, tea]⟩

/-- A recorded (incorrect) answer A to q1 within attempt 100. -/
def respA : Response := ⟨100, 10, "A", false, 7, 5⟩

/-- Store with the in-progress attempt holding one recorded answer. -/
def dbResp : DB := ⟨[hw], [q1, q2], [attP], [respA], [stu, tea]⟩

/-- A terminal (SUBMITTED) attempt of stu on hw. -/
def attS : Attempt := ⟨100, 1, 5, 0, some 20, 3, 0, AttemptStatus.SUBMITTED⟩

/-- Store in which stu already has a terminal attempt on hw. -/
def dbTerm : DB := ⟨[hw], [q1, q2], [attS], [], [stu, tea]⟩

/-- Copy of q1 with its points edited from 1 to 5. -/
def q1e : Question := ⟨10, 1, none, "img1", "a1", "b1", "c1", "d1", QOption.B, 30, 5, 1⟩

/-- dbTerm after an edit of the points of q1. -/
def dbTermEdit : DB := ⟨[hw], [q1e, q2], [attS], [], [stu, tea]⟩

/-- A one-question assignment due at time 50. -/
def hw2 : Assignment := ⟨21, 2, "HW2", none, some 50, 9⟩

/-- The single question of hw2: correct option B, 2 points. -/
def q3 : Question := ⟨30, 21, none, "img3", "a3", "b3", "c3", "d3", QOption.B, 30, 2, 1⟩

/-- An in-progress attempt of stu on hw2. -/
def attK : Attempt := ⟨200, 21, 5, 0, none, 0, 0, AttemptStatus.IN_PROGRESS⟩

/-- Store with the one-question assignment and its in-progress attempt. -/
def dbOne : DB := ⟨[hw2], [q3], [attK], [], [stu, tea]⟩

/-! Claim C3. -/

/-- C3 counterexample: at time 100 the fixture assignment (due at 50) is not
open, stu has no attempt yet, and start_attempt nevertheless succeeds and
creates the attempt instead of failing with AssignmentClosed. -/
theorem c3_counterexample :
    hw.is_open 100 = false ∧
    start_attempt 1 stu 100 200 dbBase =
      .ok ({ attempt_id := 200, questions := [q1.toPayload, q2.toPayload] },
           ⟨[hw], [q1, q2], [⟨200, 1, 5, 100, none, 0, 0, AttemptStatus.IN_PROGRESS⟩],
            [], [stu, tea]⟩) := by
  decide

/-- C3 (amended): when the caller is a student, the assignment exists and no
attempt exists yet for the (assignment, student) pair, StartAttempt creates
and returns a new IN_PROGRESS attempt at every current time: the open window
(opens_at, due_at) is never consulted and AssignmentClosed is never raised. -/
theorem c3_start_ignores_window (assignment_id : Nat) (user : User) (now : Int)
    (fresh_id : Nat) (db : DB) (a : Assignment)
    (hrole : user.role = UserRole.STUDENT)
    (hassign : db.assignments.find? (fun x => x.id == assignment_id) = some a)
    (hnone : db.attempts.find?
      (fun t => t.assignment_id == assignment_id && t.student_id == user.id) = none) :
    start_attempt assignment_id user now fresh_id db =
      .ok ({ attempt_id := fresh_id,
             questions := startQuestions
               { db with attempts := db.attempts ++
                   [⟨fresh_id, assignment_id, user.id, now, none, 0, 0,
                     AttemptStatus.IN_PROGRESS⟩] } assignment_id },
           { db with attempts := db.attempts ++
               [⟨fresh_id, assignment_id, user.id, now, none, 0, 0,
                 AttemptStatus.IN_PROGRESS⟩] }) := by
  simp [start_attempt, hrole, hassign, hnone]

/-- C3 witness: the amended theorem applied at a closed time (100, after the
due date 50) on the fixture store. -/
theorem c3_start_ignores_window_witness :
    start_attempt 1 stu 100 200 dbBase =
      .ok ({ attempt_id := 200,
             questions := startQuestions
               { dbBase with attempts := dbBase.attempts ++
                   [⟨200, 1, 5, 100, none, 0, 0, AttemptStatus.IN_PROGRESS⟩] } 1 },
           { dbBase with attempts := dbBase.attempts ++
               [⟨200, 1, 5, 100, none, 0, 0, AttemptStatus.IN_PROGRESS⟩] }) :=
  c3_start_ignores_window 1 stu 100 200 dbBase hw (by decide) (by decide) (by decide)

/-! Claim C4. -/

/-- C4 counterexample: stu already has a terminal (SUBMITTED) attempt on the
fixture assignment, yet start_attempt succeeds and returns that attempt's id
with the store unchanged instead of failing with AlreadyCompleted. -/
theorem c4_counterexample :
    attS.status = AttemptStatus.SUBMITTED ∧
    start_attempt 1 stu 99 777 dbTerm =
      .ok ({ attempt_id := 100, questions := [q1.toPayload, q2.toPayload] }, dbTerm) := by
  decide

/-- C4 (amended): when an attempt already exists for the (assignment, student)
pair, StartAttempt returns that attempt's id and leaves the store completely
unchanged (started_at, status, total_score and all Responses are untouched),
whatever the existing attempt's status: the IN_PROGRESS case is the claimed
idempotent resume, and for a terminal attempt the call also succeeds the same
way instead of failing with AlreadyCompleted. -/
theorem c4_start_returns_existing (assignment_id : Nat) (user : User) (now : Int)
    (fresh_id : Nat) (db : DB) (a : Assignment) (existing : Attempt)
    (hrole : user.role = UserRole.STUDENT)
    (hassign : db.assignments.find? (fun x => x.id == assignment_id) = some a)
    (hfound : db.attempts.find?
      (fun t => t.assignment_id == assignment_id && t.student_id == user.id) = some existing) :
    start_attempt assignment_id user now fresh_id db =
      .ok ({ attempt_id := existing.id, questions := startQuestions db assignment_id }, db) := by
  simp [start_attempt, hrole, hassign, hfound]

/-- C4 witness: the amended theorem applied to the store holding a terminal
attempt. -/
theorem c4_start_returns_existing_witness :
    start_attempt 1 stu 99 777 dbTerm =
      .ok ({ attempt_id := 100, questions := startQuestions dbTerm 1 }, dbTerm) :=
  c4_start_returns_existing 1 stu 99 777 dbTerm hw attS (by decide) (by decide) (by decide)

/-! Claim C2. -/

/-- C2 counterexample: StartAttempt stores no snapshot - the attempt it
creates carries max_possible_score 0 although the fixture questions sum to 3
points - and the max_possible_score reported by the result endpoint for one
and the same attempt changes from 3 to 7 when the points of a question are
edited afterwards (dbTermEdit differs from dbTerm only in q1's points). -/
theorem c2_counterexample :
    start_attempt 1 stu 0 200 dbBase =
      .ok ({ attempt_id := 200, questions := [q1.toPayload, q2.toPayload] },
           ⟨[hw], [q1, q2], [⟨200, 1, 5, 0, none, 0, 0, AttemptStatus.IN_PROGRESS⟩],
            [], [stu, tea]⟩) ∧
    sumBy Question.points [q1, q2] = 3 ∧
    (⟨200, 1, 5, 0, none, 0, 0, AttemptStatus.IN_PROGRESS⟩ : Attempt).max_possible_score = 0 ∧
    (get_student_attempt_result 100 stu dbTerm).map
      (fun v => v.max_possible_score) = .ok 3 ∧
    (get_student_attempt_result 100 stu dbTermEdit).map
      (fun v => v.max_possible_score) = .ok 7 := by
  decide

/-- C2 (amended): no snapshot is taken: StartAttempt leaves the created
attempt's max_possible_score at its column default 0, and the
max_possible_score a result view reports is recomputed at view time as the
sum of the points the assignment's questions currently have, so editing
question points afterwards changes the reported value. This theorem proves
the live recomputation: every successful result view reports exactly the
current sum. -/
theorem c2_live_max_score (attempt_id : Nat) (user : User) (db : DB)
    (attempt : Attempt) (view : StudentAttemptResult)
    (hfound : db.attempts.find? (fun t => t.id == attempt_id) = some attempt)
    (hok : get_student_attempt_result attempt_id user db = .ok view) :
    view.max_possible_score =
      sumBy Question.points
        (db.questions.filter (fun q => q.assignment_id == attempt.assignment_id)) := by
  unfold get_student_attempt_result at hok
  rw [hfound] at hok
  dsimp only at hok
  repeat' split at hok
  all_goals
    first
      | exact Except.noConfusion hok
      | (have hview := Except.ok.inj hok
         rw [← hview])

/-- C2 witness: the live-recomputation theorem applied to the edited store,
where the reported value is the post-edit sum 7. -/
theorem c2_live_max_score_witness :
    (⟨100, 1, "HW1", 5, "Stu Dent", AttemptStatus.SUBMITTED, 3, 7, ⟨300, 7⟩,
      0, some 20, some ⟨20, 60⟩, []⟩ : StudentAttemptResult).max_possible_score =
      sumBy Question.points
        (dbTermEdit.questions.filter (fun q => q.assignment_id == attS.assignment_id)) :=
  c2_live_max_score 100 stu dbTermEdit attS
    ⟨100, 1, "HW1", 5, "Stu Dent", AttemptStatus.SUBMITTED, 3, 7, ⟨300, 7⟩,
      0, some 20, some ⟨20, 60⟩, []⟩
    (by decide) (by decide)

/-! Claim C9. -/

/-- C9: a RecordAnswer call whose chosen_option is not one of A, B, C, D is
rejected as InvalidOption with no state returned (so no Response is created
or modified), and a successful call only ever stores responses whose
chosen_option lies in that set (the validation of AnswerRequest is modelled
from the spec since the schema class is missing from the repository
sources). -/
theorem c9_invalid_option (attempt_id : Nat) (payload : AnswerRequest) (user : User)
    (now : Int) (db : DB) :
    (payload.validChosenOption = false →
      answer_question attempt_id payload user now db = .error ⟨422, "InvalidOption"⟩) ∧
    (∀ res db2, answer_question attempt_id payload user now db = .ok (res, db2) →
      (∀ r ∈ db.responses, (["A", "B", "C", "D"].contains r.chosen_option) = true) →
      ∀ r ∈ db2.responses, (["A", "B", "C", "D"].contains r.chosen_option) = true) := by
  constructor
  · intro h
    simp [answer_question, h]
  · intro res db2 hok hall r hr
    obtain ⟨hv, att, q, hfind, hstat, hq, hasg, hresp, himps⟩ :=
      answer_question_ok_inv _ _ _ _ _ _ _ hok
    rw [hresp] at hr
    rcases mem_upsertResponses _ _ _ _ _ _ _ hr with hold | ⟨r0, _, _, heq⟩ | heq
    · exact hall r hold
    · rw [heq]
      show (["A", "B", "C", "D"].contains payload.chosen_option) = true
      exact hv
    · rw [heq]
      show (["A", "B", "C", "D"].contains payload.chosen_option) = true
      exact hv

/-- C9 witness: the rejection applied to an out-of-range option E on the
fixture store, and the stored-options invariant applied to a successful call
recording B, instantiated at the stored response. -/
theorem c9_invalid_option_witness :
    answer_question 100 ⟨10, "E", 7⟩ stu 5 dbProg = .error ⟨422, "InvalidOption"⟩ ∧
    (["A", "B", "C", "D"].contains "B") = true :=
  ⟨(c9_invalid_option 100 ⟨10, "E", 7⟩ stu 5 dbProg).1 (by decide),
   (c9_invalid_option 100 ⟨10, "B", 7⟩ stu 5 dbProg).2
     ⟨"Answer recorded successfully", false⟩
     ⟨[hw], [q1, q2], [attP], [⟨100, 10, "B", true, 7, 5⟩], [stu, tea]⟩
     (by decide) (by decide)
     ⟨100, 10, "B", true, 7, 5⟩ (by decide)⟩

/-! Claim C10. -/

/-- C10: when RecordAnswer overwrites the existing Response of the
(attempt, question) pair, the stored row afterwards carries the new
chosen_option, the recomputed is_correct and the new time_taken_seconds, but
keeps the answered_at timestamp of the original first answer (the update
never assigns answered_at). -/
theorem c10_overwrite_keeps_answered_at (attempt_id : Nat) (payload : AnswerRequest)
    (user : User) (now : Int) (db : DB) (att : Attempt) (q : Question) (r0 : Response)
    (res : AnswerResult) (db2 : DB)
    (hpw : db.responses.Pairwise (fun r s => respKey r ≠ respKey s))
    (hfind : db.attempts.find? (fun t => t.id == attempt_id && t.student_id == user.id) = some att)
    (hq : db.questions.find? (fun x => x.id == payload.question_id) = some q)
    (hex : db.responses.find? (fun r => r.attempt_id == att.id && r.question_id == q.id) = some r0)
    (hok : answer_question attempt_id payload user now db = .ok (res, db2)) :
    db2.responses.filter (fun r => r.attempt_id == att.id && r.question_id == q.id) =
      [{ attempt_id := r0.attempt_id
         question_id := r0.question_id
         chosen_option := payload.chosen_option
         is_correct := (payload.chosen_option == q.correct_option.value)
         time_taken_seconds := payload.time_taken_seconds
         answered_at := r0.answered_at }] := by
  obtain ⟨hv, att', q', hfind', hstat, hq', hasg, hresp, himps⟩ :=
    answer_question_ok_inv _ _ _ _ _ _ _ hok
  have hatt : att' = att := Option.some.inj (hfind'.symm.trans hfind)
  have hqq : q' = q := Option.some.inj (hq'.symm.trans hq)
  rw [hatt, hqq] at hresp
  rw [hresp]
  exact filter_upsert_update db.responses att.id q.id payload
    (payload.chosen_option == q.correct_option.value) now r0 hpw hex

/-- C10 witness: overwriting the recorded answer A (answered_at 5) with C at
time 8 leaves one row with chosen_option C, is_correct false, the new time
9 and the original answered_at 5. -/
theorem c10_overwrite_keeps_answered_at_witness :
    (⟨[hw], [q1, q2], [attP], [⟨100, 10, "C", false, 9, 5⟩], [stu, tea]⟩ : DB).responses.filter
        (fun r => r.attempt_id == attP.id && r.question_id == q1.id) =
      [{ attempt_id := respA.attempt_id
         question_id := respA.question_id
         chosen_option := "C"
         is_correct := ("C" == q1.correct_option.value)
         time_taken_seconds := 9
         answered_at := respA.answered_at }] :=
  c10_overwrite_keeps_answered_at 100 ⟨10, "C", 9⟩ stu 8 dbResp attP q1 respA
    ⟨"Answer recorded successfully", false⟩
    ⟨[hw], [q1, q2], [attP], [⟨100, 10, "C", false, 9, 5⟩], [stu, tea]⟩
    (by decide) (by decide) (by decide) (by decide) (by decide)

/-! Claim C8. -/

/-- The store after answering the single question of hw2 with A: the attempt
auto-submitted with score 0. -/
def dbOneAfterA : DB :=
  ⟨[hw2], [q3], [⟨200, 21, 5, 0, some 7, 0, 0, AttemptStatus.SUBMITTED⟩],
   [⟨200, 30, "A", false, 3, 7⟩], [stu, tea]⟩

/-- C8 counterexample: on a one-question assignment the first RecordAnswer
(option A) auto-submits the attempt, so the second RecordAnswer (option B)
for the same question fails with the invalid-attempt error and the stored
Response still holds chosen_option A, not B - the claim's universal
overwrite guarantee fails when the first call answers the last open
question. -/
theorem c8_counterexample :
    answer_question 200 ⟨30, "A", 3⟩ stu 7 dbOne =
      .ok ({ message := "Answer recorded. Assignment completed and submitted automatically!",
             auto_submitted := true }, dbOneAfterA) ∧
    answer_question 200 ⟨30, "B", 4⟩ stu 9 dbOneAfterA = .error ⟨400, "Invalid attempt"⟩ ∧
    dbOneAfterA.responses.map (fun r => r.chosen_option) = ["A"] := by
  decide

/-- C8 (amended): the overwrite guarantee holds whenever the first
RecordAnswer does not auto-submit the attempt (it reports auto_submitted
false, i.e. some question is still unanswered): recording o1 then o2 for the
same question leaves exactly one Response for the (attempt, question) pair,
with chosen_option o2, is_correct recomputed against the question's correct
option, and no trace of o1; if the first call auto-submits, the second call
is rejected and o1 survives, as the counterexample shows. -/
theorem c8_overwrite (attempt_id qid : Nat) (user : User) (now1 now2 : Int) (db : DB)
    (att : Attempt) (q : Question) (o1 o2 : String) (t1 t2 : Nat)
    (res1 : AnswerResult) (db1 : DB)
    (hpw : db.responses.Pairwise (fun r s => respKey r ≠ respKey s))
    (hnone : db.responses.find?
      (fun r => r.attempt_id == att.id && r.question_id == q.id) = none)
    (hfind : db.attempts.find? (fun t => t.id == attempt_id && t.student_id == user.id) = some att)
    (hq : db.questions.find? (fun x => x.id == qid) = some q)
    (hv2 : (AnswerRequest.mk qid o2 t2).validChosenOption = true)
    (h1 : answer_question attempt_id ⟨qid, o1, t1⟩ user now1 db = .ok (res1, db1))
    (hauto : res1.auto_submitted = false) :
    answer_question attempt_id ⟨qid, o2, t2⟩ user now2 db1 =
      .ok (⟨"Answer recorded successfully", false⟩,
           answerDB1 db1 att q ⟨qid, o2, t2⟩ now2) ∧
    (answerDB1 db1 att q ⟨qid, o2, t2⟩ now2).responses.filter
        (fun r => r.attempt_id == att.id && r.question_id == q.id) =
      [{ attempt_id := att.id
         question_id := q.id
         chosen_option := o2
         is_correct := (o2 == q.correct_option.value)
         time_taken_seconds := t2
         answered_at := now1 }] := by
  obtain ⟨hv1, att', q', hfind', hstat', hq', hasg', hresp1, himps⟩ :=
    answer_question_ok_inv _ _ _ _ _ _ _ h1
  have hatt : att' = att := Option.some.inj (hfind'.symm.trans hfind)
  have hqq : q' = q := Option.some.inj (hq'.symm.trans hq)
  subst hatt
  subst hqq
  have hc : ¬ (countResponses (answerDB1 db att' q' ⟨qid, o1, t1⟩ now1) att'.id ≥
      countQuestions (answerDB1 db att' q' ⟨qid, o1, t1⟩ now1) att'.assignment_id) := by
    intro hc
    have := (himps.1 hc).1
    rw [this] at hauto
    exact Bool.noConfusion hauto
  have hdb1 : db1 = answerDB1 db att' q' ⟨qid, o1, t1⟩ now1 := (himps.2 hc).2
  subst hdb1
  -- the appended row of the first call
  have happ : (answerDB1 db att' q' ⟨qid, o1, t1⟩ now1).responses =
      db.responses ++ [newResponse att'.id q'.id ⟨qid, o1, t1⟩
        (o1 == q'.correct_option.value) now1] := by
    unfold answerDB1
    exact upsert_eq_append_of_none _ _ _ _ _ _ hnone
  have hnew : ((newResponse att'.id q'.id (AnswerRequest.mk qid o1 t1)
      (o1 == q'.correct_option.value) now1).attempt_id == att'.id &&
      (newResponse att'.id q'.id (AnswerRequest.mk qid o1 t1)
        (o1 == q'.correct_option.value) now1).question_id == q'.id) = true := by
    simp [newResponse]
  have hfind1 : (answerDB1 db att' q' ⟨qid, o1, t1⟩ now1).responses.find?
      (fun r => r.attempt_id == att'.id && r.question_id == q'.id) =
      some (newResponse att'.id q'.id ⟨qid, o1, t1⟩ (o1 == q'.correct_option.value) now1) := by
    rw [happ, List.find?_append, hnone]
    simp only [Option.none_or]
    rw [List.find?_cons, hnew]
  have hpw1 : (answerDB1 db att' q' ⟨qid, o1, t1⟩ now1).responses.Pairwise
      (fun r s => respKey r ≠ respKey s) := by
    unfold answerDB1
    exact pairwise_upsertResponses _ _ _ _ _ _ hpw
  have hcount2 : countResponses
      (answerDB1 (answerDB1 db att' q' ⟨qid, o1, t1⟩ now1) att' q' ⟨qid, o2, t2⟩ now2) att'.id =
      countResponses (answerDB1 db att' q' ⟨qid, o1, t1⟩ now1) att'.id :=
    countResponses_answerDB1_of_found _ _ _ _ _ (by rw [hfind1]; rfl)
  have hlt2 : ¬ (countResponses
      (answerDB1 (answerDB1 db att' q' ⟨qid, o1, t1⟩ now1) att' q' ⟨qid, o2, t2⟩ now2) att'.id ≥
      countQuestions
        (answerDB1 (answerDB1 db att' q' ⟨qid, o1, t1⟩ now1) att' q' ⟨qid, o2, t2⟩ now2)
        att'.assignment_id) := by
    rw [hcount2, countQuestions_answerDB1]
    intro hy
    exact hc hy
  constructor
  · exact answer_question_eval attempt_id ⟨qid, o2, t2⟩ user now2
      (answerDB1 db att' q' ⟨qid, o1, t1⟩ now1) att' q' hv2 hfind hstat' hq hasg' hlt2
  · show (upsertResponses (answerDB1 db att' q' ⟨qid, o1, t1⟩ now1).responses att'.id q'.id
        (AnswerRequest.mk qid o2 t2) (o2 == q'.correct_option.value) now2).filter
        (fun r => r.attempt_id == att'.id && r.question_id == q'.id) = _
    rw [filter_upsert_update _ _ _ _ _ _ _ hpw1 hfind1]
    rfl

/-- C8 witness: on the two-question fixture, recording A for q1 then B for
the same question leaves exactly one Response with chosen_option B,
is_correct true and the first call's answered_at. -/
theorem c8_overwrite_witness :
    answer_question 100 ⟨10, "B", 9⟩ stu 8 dbResp =
      .ok (⟨"Answer recorded successfully", false⟩,
           answerDB1 dbResp attP q1 ⟨10, "B", 9⟩ 8) ∧
    (answerDB1 dbResp attP q1 ⟨10, "B", 9⟩ 8).responses.filter
        (fun r => r.attempt_id == attP.id && r.question_id == q1.id) =
      [{ attempt_id := attP.id
         question_id := q1.id
         chosen_option := "B"
         is_correct := ("B" == q1.correct_option.value)
         time_taken_seconds := 9
         answered_at := 5 }] :=
  c8_overwrite 100 10 stu 5 8 dbProg attP q1 "A" "B" 7 9
    ⟨"Answer recorded successfully", false⟩ dbResp
    (by decide) (by decide) (by decide) (by decide) (by decide) (by decide) (by decide)

/-- Case analysis of the late-detection step when the assignment was found:
the status is always LATE or SUBMITTED, and LATE exactly when a due date is
set and lies strictly before the submission time. -/
theorem lateStatus_spec (a : Assignment) (now : Int) :
    (lateStatus (some a) now = AttemptStatus.LATE ∨
      lateStatus (some a) now = AttemptStatus.SUBMITTED) ∧
    (lateStatus (some a) now = AttemptStatus.LATE ↔
      a.due_at.any (fun d => decide (now > d)) = true) := by
  rcases hdue : a.due_at with _ | d
  · simp [lateStatus, hdue]
  · by_cases hgt : now > d
    · simp [lateStatus, hdue, hgt]
    · simp [lateStatus, hdue, hgt]

/-- The total score the specification prescribes for an attempt, written
from the spec's words for comparison with the code's SQL aggregate: the sum
of the points of exactly those questions of the attempt's assignment for
which the stored (final) Response of the attempt has chosen_option equal to
the question's correct_option; questions with no Response contribute
nothing. -/
def specScore (db : DB) (att : Attempt) : Nat :=
  sumBy Question.points
    ((db.questions.filter (fun q => q.assignment_id == att.assignment_id)).filter
      (fun q => db.responses.any
        (fun r => r.attempt_id == att.id && r.question_id == q.id &&
          r.chosen_option == q.correct_option.value)))

/-- Sum over a duplicate-free join: summing, per response, the points of the
questions matching its question_id equals summing the points of the
questions that some response matches. -/
theorem sum_points_join (qs : List Question) (A : Nat)
    (hqpw : qs.Pairwise (fun a b => a.id ≠ b.id)) (R : List Response)
    (hnd : (R.map (fun r => r.question_id)).Nodup)
    (hb : ∀ r ∈ R, ∃ q ∈ qs, q.id = r.question_id ∧ (q.assignment_id == A) = true) :
    sumBy (fun r => sumBy Question.points (qs.filter (fun q => q.id == r.question_id))) R =
      sumBy Question.points
        (qs.filter (fun q => q.assignment_id == A &&
          R.any (fun rr => rr.question_id == q.id))) := by
  induction R with
  | nil => simp [sumBy]
  | cons r R' ih =>
    have hnd2 := hnd
    rw [List.map_cons] at hnd2
    have hndc := List.nodup_cons.mp hnd2
    have hnotin : r.question_id ∉ R'.map (fun r => r.question_id) := hndc.1
    obtain ⟨q0, hq0mem, hq0id, hq0A⟩ := hb r (List.mem_cons_self r R')
    have hb' : ∀ s ∈ R', ∃ q ∈ qs, q.id = s.question_id ∧ (q.assignment_id == A) = true :=
      fun s hs => hb s (List.mem_cons_of_mem r hs)
    have hpred : ∀ q ∈ qs,
        (q.assignment_id == A && (r :: R').any (fun rr => rr.question_id == q.id)) =
        ((q.assignment_id == A && (r.question_id == q.id)) ||
         (q.assignment_id == A && R'.any (fun rr => rr.question_id == q.id))) := by
      intro q hq
      simp [List.any_cons, Bool.and_or_distrib_left]
    rw [List.filter_congr hpred]
    rw [sumBy_filter_or Question.points
      (fun q => q.assignment_id == A && (r.question_id == q.id))
      (fun q => q.assignment_id == A && R'.any (fun rr => rr.question_id == q.id)) qs ?hdis]
    case hdis =>
      rintro q hqmem ⟨h1, h2⟩
      have hq1 : r.question_id = q.id := eq_of_beq ((Bool.and_eq_true _ _).mp h1).2
      obtain ⟨rr, hrr, hrrq⟩ := List.any_eq_true.mp ((Bool.and_eq_true _ _).mp h2).2
      refine hnotin (List.mem_map.mpr ⟨rr, hrr, ?_⟩)
      rw [eq_of_beq hrrq, ← hq1]
    have hfirst : sumBy Question.points
        (qs.filter (fun q => q.assignment_id == A && (r.question_id == q.id))) =
        sumBy Question.points (qs.filter (fun q => q.id == r.question_id)) := by
      apply congrArg
      apply List.filter_congr
      intro q hq
      by_cases hqq : q.id = r.question_id
      · have hq0 : q = q0 :=
          eq_of_mem_of_key_eq (fun x => x.id) hqpw hq hq0mem
            (by show q.id = q0.id; rw [hqq, hq0id])
        have e1 : (q.assignment_id == A) = true := by rw [hq0]; exact hq0A
        have e2 : (r.question_id == q.id) = true := by simp [hqq]
        have e3 : (q.id == r.question_id) = true := by simp [hqq]
        rw [e1, e2, e3, Bool.true_and]
      · have e2 : (r.question_id == q.id) = false := by
          simpa using fun h => hqq h.symm
        have e3 : (q.id == r.question_id) = false := by simpa using hqq
        rw [e2, e3, Bool.and_false]
    rw [hfirst, ← ih hndc.2 hb']
    simp [sumBy]

/-- The SQL aggregate of the submit paths computes exactly the
specification's score: under the store's uniqueness constraints, with every
response of the attempt linked to a question of its assignment and is_correct
stored as the comparison of chosen and correct option, the joined sum over
correct responses equals the per-question specification sum. -/
theorem joinScore_eq_specScore (db : DB) (att : Attempt)
    (hqpw : db.questions.Pairwise (fun a b => a.id ≠ b.id))
    (hrpw : db.responses.Pairwise (fun r s => respKey r ≠ respKey s))
    (hlink : ∀ r ∈ db.responses, r.attempt_id = att.id →
      ∃ q ∈ db.questions, q.id = r.question_id ∧ q.assignment_id = att.assignment_id)
    (hcorr : ∀ r ∈ db.responses, ∀ q ∈ db.questions, q.id = r.question_id →
      r.is_correct = (r.chosen_option == q.correct_option.value)) :
    joinScore db att.id = specScore db att := by
  have hnd : ((db.responses.filter (fun r => r.attempt_id == att.id && r.is_correct)).map
      (fun r => r.question_id)).Nodup :=
    nodup_qids_filter hrpw _ (fun r h => eq_of_beq ((Bool.and_eq_true _ _).mp h).1)
  have hb : ∀ r ∈ db.responses.filter (fun r => r.attempt_id == att.id && r.is_correct),
      ∃ q ∈ db.questions, q.id = r.question_id ∧
        (q.assignment_id == att.assignment_id) = true := by
    intro r hr
    have hmem := (List.mem_filter.mp hr).1
    have hatt : r.attempt_id = att.id :=
      eq_of_beq ((Bool.and_eq_true _ _).mp (List.mem_filter.mp hr).2).1
    obtain ⟨q, hq, hqid, hqa⟩ := hlink r hmem hatt
    exact ⟨q, hq, hqid, by simp [hqa]⟩
  have hstar := sum_points_join db.questions att.assignment_id hqpw
    (db.responses.filter (fun r => r.attempt_id == att.id && r.is_correct)) hnd hb
  have hspec : specScore db att = sumBy Question.points
      (db.questions.filter (fun q => q.assignment_id == att.assignment_id &&
        (db.responses.filter (fun r => r.attempt_id == att.id && r.is_correct)).any
          (fun rr => rr.question_id == q.id))) := by
    unfold specScore
    rw [List.filter_filter]
    apply congrArg
    apply List.filter_congr
    intro q hq
    have hiff : (db.responses.any (fun r => r.attempt_id == att.id && r.question_id == q.id &&
        r.chosen_option == q.correct_option.value)) =
        ((db.responses.filter (fun r => r.attempt_id == att.id && r.is_correct)).any
          (fun rr => rr.question_id == q.id)) := by
      cases h1 : (db.responses.any (fun r => r.attempt_id == att.id && r.question_id == q.id &&
          r.chosen_option == q.correct_option.value)) with
      | true =>
        obtain ⟨r, hrmem, hrp⟩ := List.any_eq_true.mp h1
        have hsplit := (Bool.and_eq_true _ _).mp hrp
        have hsplit2 := (Bool.and_eq_true _ _).mp hsplit.1
        have hic : r.is_correct = true := by
          rw [hcorr r hrmem q hq (eq_of_beq hsplit2.2).symm]
          exact hsplit.2
        symm
        exact List.any_eq_true.mpr
          ⟨r, List.mem_filter.mpr ⟨hrmem, by simp [hsplit2.1, hic]⟩, hsplit2.2⟩
      | false =>
        symm
        cases h2 : ((db.responses.filter (fun r => r.attempt_id == att.id && r.is_correct)).any
            (fun rr => rr.question_id == q.id)) with
        | false => rfl
        | true =>
          obtain ⟨r, hrmem, hrq⟩ := List.any_eq_true.mp h2
          have hm := List.mem_filter.mp hrmem
          have hsp := (Bool.and_eq_true _ _).mp hm.2
          have hcc : (r.chosen_option == q.correct_option.value) = true := by
            rw [← hcorr r hm.1 q hq (eq_of_beq hrq).symm]
            exact hsp.2
          have hany : db.responses.any (fun r => r.attempt_id == att.id &&
              r.question_id == q.id && r.chosen_option == q.correct_option.value) = true :=
            List.any_eq_true.mpr ⟨r, hm.1, by simp [hsp.1, hrq, hcc]⟩
          rw [h1] at hany
          exact Bool.noConfusion hany
    rw [hiff, Bool.and_comm]
  have hjoin : joinScore db att.id =
      sumBy (fun r => sumBy Question.points
        (db.questions.filter (fun q => q.id == r.question_id)))
        (db.responses.filter (fun r => r.attempt_id == att.id && r.is_correct)) := rfl
  rw [hjoin, hstar, hspec]

/-- Under the uniqueness constraint on (attempt_id, question_id), the number
of distinct questions answered within an attempt equals the row count of its
responses. -/
theorem distinctAnswered_eq_count (db : DB) (aid : Nat)
    (hpw : db.responses.Pairwise (fun r s => respKey r ≠ respKey s)) :
    distinctAnswered db aid = countResponses db aid := by
  unfold distinctAnswered countResponses
  have hnd : ((db.responses.filter (fun r => r.attempt_id == aid)).map
      (fun r => r.question_id)).Nodup :=
    nodup_qids_filter hpw _ (fun r h => by simpa using h)
  rw [List.dedup_eq_self.mpr hnd, List.length_map]

/-! Claim C5. -/

/-- C5 counterexample: answering the last question of the one-question
fixture at time 100, after its due date 50, auto-submits the attempt with
status SUBMITTED, not LATE - the auto-submit path never performs the late
check. -/
theorem c5_counterexample :
    hw2.due_at = some 50 ∧ ((100 : Int) > 50) = True ∧
    answer_question 200 ⟨30, "B", 3⟩ stu 100 dbOne =
      .ok ({ message := "Answer recorded. Assignment completed and submitted automatically!",
             auto_submitted := true },
           ⟨[hw2], [q3], [⟨200, 21, 5, 0, some 100, 2, 0, AttemptStatus.SUBMITTED⟩],
            [⟨200, 30, "B", true, 3, 100⟩], [stu, tea]⟩) := by
  refine ⟨rfl, by simp, by decide⟩

/-- C5 (amended): an explicit Submit yields a status that is always SUBMITTED
or LATE, and is LATE exactly when the assignment row was found with a due
date set and the submission time strictly after it, both in the returned body
and in the stored attempt row; the auto-submit triggered by RecordAnswer on
the last unanswered question, however, always stores SUBMITTED, even after
due_at. -/
theorem c5_late_status (user : User) (now : Int) (db : DB) :
    (∀ attempt_id attempt a res db1,
      db.attempts.find? (fun t => t.id == attempt_id && t.student_id == user.id) = some attempt →
      db.assignments.find? (fun x => x.id == attempt.assignment_id) = some a →
      submit_attempt attempt_id user now db = .ok (res, db1) →
      ((res.status = AttemptStatus.LATE ∨ res.status = AttemptStatus.SUBMITTED) ∧
       (res.status = AttemptStatus.LATE ↔ a.due_at.any (fun d => decide (now > d)) = true) ∧
       (db1.findAttempt attempt.id).map Attempt.status = some res.status)) ∧
    (∀ attempt_id payload att res2 db2,
      db.attempts.find? (fun t => t.id == attempt_id && t.student_id == user.id) = some att →
      answer_question attempt_id payload user now db = .ok (res2, db2) →
      res2.auto_submitted = true →
      (db2.findAttempt att.id).map Attempt.status = some AttemptStatus.SUBMITTED) := by
  constructor
  · intro attempt_id attempt a res db1 hfind ha hok
    unfold submit_attempt at hok
    have hmem := List.mem_of_find?_eq_some hfind
    split at hok
    · exact Except.noConfusion hok
    · rename_i att1 heq
      have hatt1 : att1 = attempt := Option.some.inj (heq.symm.trans hfind)
      subst hatt1
      split at hok
      · exact Except.noConfusion hok
      · split at hok
        · exact Except.noConfusion hok
        · dsimp only at hok
          rw [ha] at hok
          injection Except.ok.inj hok with h1 h2
          have hres : res.status = lateStatus (some a) now := by
            rw [← h1]
          have hstored : (db1.findAttempt att1.id).map Attempt.status =
              some (lateStatus (some a) now) := by
            rw [← h2]
            show ((setAttempt db.attempts att1.id
              (submittedAttempt att1 (lateStatus (some a) now) now
                (joinScore db attempt_id))).find?
                  (fun t => t.id == att1.id)).map Attempt.status = _
            rw [setAttempt_find hmem
              (submittedAttempt att1 (lateStatus (some a) now) now
                (joinScore db attempt_id)) rfl]
            rfl
          refine ⟨?_, ?_, ?_⟩
          · rw [hres]
            exact (lateStatus_spec a now).1
          · rw [hres]
            exact (lateStatus_spec a now).2
          · rw [hstored, hres]
  · intro attempt_id payload att res2 db2 hfind hok hauto
    obtain ⟨hv, att', q', hfind', hstat', hq', hasg', hresp, himps⟩ :=
      answer_question_ok_inv _ _ _ _ _ _ _ hok
    have hatt : att' = att := Option.some.inj (hfind'.symm.trans hfind)
    subst hatt
    by_cases hc : countResponses (answerDB1 db att' q' payload now) att'.id ≥
        countQuestions (answerDB1 db att' q' payload now) att'.assignment_id
    · have hdb2 := (himps.1 hc).2
      rw [hdb2]
      have hmem := List.mem_of_find?_eq_some hfind'
      show ((setAttempt db.attempts att'.id
        (submittedAttempt att' AttemptStatus.SUBMITTED now
          (joinScore (answerDB1 db att' q' payload now) att'.id))).find?
            (fun t => t.id == att'.id)).map Attempt.status = _
      rw [setAttempt_find hmem
        (submittedAttempt att' AttemptStatus.SUBMITTED now
          (joinScore (answerDB1 db att' q' payload now) att'.id)) rfl]
      rfl
    · have := (himps.2 hc).1
      rw [this] at hauto
      exact Bool.noConfusion hauto

/-- C5 witness: the explicit-submit half applied at time 100 (after the due
date 50, giving LATE), and the auto-submit half applied to the one-question
fixture at time 100 (stored status SUBMITTED despite the passed due date). -/
theorem c5_late_status_witness :
    (((⟨"Assignment submitted successfully!", AttemptStatus.LATE, 0, 0, 2, 100, true⟩ :
        SubmitResult).status = AttemptStatus.LATE ∨
      (⟨"Assignment submitted successfully!", AttemptStatus.LATE, 0, 0, 2, 100, true⟩ :
        SubmitResult).status = AttemptStatus.SUBMITTED) ∧
     ((⟨"Assignment submitted successfully!", AttemptStatus.LATE, 0, 0, 2, 100, true⟩ :
        SubmitResult).status = AttemptStatus.LATE ↔
       hw.due_at.any (fun d => decide ((100 : Int) > d)) = true) ∧
     ((⟨[hw], [q1, q2],
        [⟨100, 1, 5, 0, some 100, 0, 0, AttemptStatus.LATE⟩], [], [stu, tea]⟩ : DB).findAttempt
          attP.id).map Attempt.status =
       some (⟨"Assignment submitted successfully!", AttemptStatus.LATE, 0, 0, 2, 100, true⟩ :
         SubmitResult).status) ∧
    ((⟨[hw2], [q3], [⟨200, 21, 5, 0, some 100, 2, 0, AttemptStatus.SUBMITTED⟩],
        [⟨200, 30, "B", true, 3, 100⟩], [stu, tea]⟩ : DB).findAttempt attK.id).map
        Attempt.status = some AttemptStatus.SUBMITTED :=
  ⟨(c5_late_status stu 100 dbProg).1 100 attP hw
      ⟨"Assignment submitted successfully!", AttemptStatus.LATE, 0, 0, 2, 100, true⟩
      ⟨[hw], [q1, q2], [⟨100, 1, 5, 0, some 100, 0, 0, AttemptStatus.LATE⟩], [], [stu, tea]⟩
      (by decide) (by decide) (by decide),
   (c5_late_status stu 100 dbOne).2 200 ⟨30, "B", 3⟩ attK
      ⟨"Answer recorded. Assignment completed and submitted automatically!", true⟩
      ⟨[hw2], [q3], [⟨200, 21, 5, 0, some 100, 2, 0, AttemptStatus.SUBMITTED⟩],
       [⟨200, 30, "B", true, 3, 100⟩], [stu, tea]⟩
      (by decide) (by decide) (by decide)⟩

/-! Claim C6. -/

/-- C6: a successful RecordAnswer auto-submits exactly on the last distinct
question: when the number of distinct answered questions afterwards equals
the assignment's question count K, the call reports auto_submitted true and
the stored attempt becomes SUBMITTED (a terminal status) in that same call;
when fewer than K distinct questions are answered, the call reports
auto_submitted false and the attempt stays IN_PROGRESS. -/
theorem c6_auto_submit (attempt_id : Nat) (payload : AnswerRequest) (user : User)
    (now : Int) (db : DB) (att : Attempt) (res : AnswerResult) (db2 : DB)
    (hapw : db.attempts.Pairwise (fun a b => a.id ≠ b.id))
    (hrpw : db.responses.Pairwise (fun r s => respKey r ≠ respKey s))
    (hfind : db.attempts.find? (fun t => t.id == attempt_id && t.student_id == user.id) = some att)
    (hok : answer_question attempt_id payload user now db = .ok (res, db2)) :
    (distinctAnswered db2 att.id = countQuestions db att.assignment_id →
      res.auto_submitted = true ∧
      (db2.findAttempt att.id).map Attempt.status = some AttemptStatus.SUBMITTED) ∧
    (distinctAnswered db2 att.id < countQuestions db att.assignment_id →
      res.auto_submitted = false ∧
      (db2.findAttempt att.id).map Attempt.status = some AttemptStatus.IN_PROGRESS) := by
  obtain ⟨hv, att', q', hfind', hstat', hq', hasg', hresp, himps⟩ :=
    answer_question_ok_inv _ _ _ _ _ _ _ hok
  have hatt : att' = att := Option.some.inj (hfind'.symm.trans hfind)
  subst hatt
  have hpw2 : db2.responses.Pairwise (fun r s => respKey r ≠ respKey s) := by
    rw [hresp]
    exact pairwise_upsertResponses _ _ _ _ _ _ hrpw
  have hdac : distinctAnswered db2 att'.id = countResponses db2 att'.id :=
    distinctAnswered_eq_count db2 att'.id hpw2
  have hcnt : countResponses db2 att'.id =
      countResponses (answerDB1 db att' q' payload now) att'.id := by
    unfold countResponses
    rw [hresp]
    rfl
  have hmem := List.mem_of_find?_eq_some hfind'
  constructor
  · intro hn
    have hge : countResponses (answerDB1 db att' q' payload now) att'.id ≥
        countQuestions (answerDB1 db att' q' payload now) att'.assignment_id := by
      rw [countQuestions_answerDB1]
      omega
    obtain ⟨hres, hdb2⟩ := himps.1 hge
    refine ⟨by rw [hres], ?_⟩
    rw [hdb2]
    show ((setAttempt db.attempts att'.id
      (submittedAttempt att' AttemptStatus.SUBMITTED now
        (joinScore (answerDB1 db att' q' payload now) att'.id))).find?
          (fun t => t.id == att'.id)).map Attempt.status = _
    rw [setAttempt_find hmem
      (submittedAttempt att' AttemptStatus.SUBMITTED now
        (joinScore (answerDB1 db att' q' payload now) att'.id)) rfl]
    rfl
  · intro hn
    have hlt : ¬ (countResponses (answerDB1 db att' q' payload now) att'.id ≥
        countQuestions (answerDB1 db att' q' payload now) att'.assignment_id) := by
      rw [countQuestions_answerDB1]
      omega
    obtain ⟨hres, hdb2⟩ := himps.2 hlt
    refine ⟨by rw [hres], ?_⟩
    rw [hdb2]
    show ((db.attempts.find? (fun t => t.id == att'.id))).map Attempt.status =
      some AttemptStatus.IN_PROGRESS
    rw [findAttempt_of_mem hapw hmem]
    simp [hstat']

/-- C6 witness: on the two-question fixture, answering the first question
leaves one distinct question answered (fewer than 2, auto_submitted false,
still IN_PROGRESS), and answering the second afterwards reaches two distinct
questions (auto_submitted true, stored status SUBMITTED). -/
theorem c6_auto_submit_witness :
    ((⟨"Answer recorded successfully", false⟩ : AnswerResult).auto_submitted = false ∧
      ((answerDB1 dbProg attP q1 ⟨10, "A", 7⟩ 5).findAttempt attP.id).map Attempt.status =
        some AttemptStatus.IN_PROGRESS) ∧
    ((⟨"Answer recorded. Assignment completed and submitted automatically!", true⟩ :
        AnswerResult).auto_submitted = true ∧
      ((answerAutoDB dbResp attP q2 ⟨11, "A", 8⟩ 9).findAttempt attP.id).map Attempt.status =
        some AttemptStatus.SUBMITTED) :=
  ⟨(c6_auto_submit 100 ⟨10, "A", 7⟩ stu 5 dbProg attP
      ⟨"Answer recorded successfully", false⟩ (answerDB1 dbProg attP q1 ⟨10, "A", 7⟩ 5)
      (by decide) (by decide) (by decide) (by decide)).2 (by decide),
   (c6_auto_submit 100 ⟨11, "A", 8⟩ stu 9 dbResp attP
      ⟨"Answer recorded. Assignment completed and submitted automatically!", true⟩
      (answerAutoDB dbResp attP q2 ⟨11, "A", 8⟩ 9)
      (by decide) (by decide) (by decide) (by decide)).1 (by decide)⟩

/-! Claim C1. -/

/-- C1 counterexample: the attempt is IN_PROGRESS and the caller is the
student who owns it, yet the result view exposes both chosen_option and
correct_option (the ground truth B) for the recorded response. -/
theorem c1_counterexample :
    attP.status = AttemptStatus.IN_PROGRESS ∧
    stu.role = UserRole.STUDENT ∧
    attP.student_id = stu.id ∧
    (get_student_attempt_result 100 stu dbResp).map
      (fun v => v.responses.map (fun e => (e.chosen_option, e.correct_option))) =
      .ok [("A", "B")] := by
  decide

/-- C1 (amended): GetAttemptResult is role-gated only for access, not for
field visibility: a student who does not own the attempt and a teacher who
did not create the assignment receive Forbidden, but every authorized view -
student-owner or assignment-creating teacher, and whatever the attempt's
status, IN_PROGRESS included - contains, for each recorded response joined
with its question, an entry carrying chosen_option, correct_option,
is_correct and points_earned. The terminal half of the claim thus holds, the
IN_PROGRESS hiding does not exist. -/
theorem c1_result_view (attempt_id : Nat) (user : User) (db : DB) (attempt : Attempt)
    (hfound : db.attempts.find? (fun t => t.id == attempt_id) = some attempt) :
    (user.role = UserRole.STUDENT → attempt.student_id ≠ user.id →
      get_student_attempt_result attempt_id user db =
        .error ⟨403, "You can only view your own attempt results"⟩) ∧
    (∀ a, user.role = UserRole.TEACHER →
      db.assignments.find? (fun x => x.id == attempt.assignment_id) = some a →
      a.created_by ≠ user.id →
      get_student_attempt_result attempt_id user db =
        .error ⟨403, "You can only view results for assignments you created"⟩) ∧
    (∀ view, get_student_attempt_result attempt_id user db = .ok view →
      ∀ r ∈ db.responses, r.attempt_id = attempt_id →
      ∀ q ∈ db.questions, q.id = r.question_id →
      (mkResponseView r q ∈ view.responses ∧
       (mkResponseView r q).correct_option = q.correct_option.value ∧
       (mkResponseView r q).chosen_option = r.chosen_option ∧
       (mkResponseView r q).is_correct = r.is_correct ∧
       (mkResponseView r q).points_earned = (if r.is_correct then q.points else 0))) := by
  refine ⟨?_, ?_, ?_⟩
  · intro hrole hown
    unfold get_student_attempt_result
    rw [hfound]
    simp [hrole, hown]
  · intro a hrole ha hnc
    unfold get_student_attempt_result
    rw [hfound]
    simp [hrole, ha, hnc]
  · intro view hok r hr hratt q hq hqid
    refine ⟨?_, rfl, rfl, rfl, rfl⟩
    unfold get_student_attempt_result at hok
    rw [hfound] at hok
    dsimp only at hok
    repeat' split at hok
    all_goals try exact Except.noConfusion hok
    all_goals
      rw [← Except.ok.inj hok]
      show mkResponseView r q ∈ resultResponses db attempt_id
      unfold resultResponses
      rw [mem_sortByKey]
      refine List.mem_flatMap.mpr ⟨r, List.mem_filter.mpr ⟨hr, by simp [hratt]⟩, ?_⟩
      exact List.mem_map.mpr ⟨q, List.mem_filter.mpr ⟨hq, by simp [hqid]⟩, rfl⟩

/-- The result view of the in-progress fixture attempt as the owning student
receives it: the single recorded response is exposed in full. -/
def c1view : StudentAttemptResult :=
  ⟨100, 1, "HW1", 5, "Stu Dent", AttemptStatus.IN_PROGRESS, 0, 3, ⟨0, 3⟩, 0, none, none,
   [⟨10, none, "a1", "b1", "c1", "d1", "A", "B", false, 0, 1, 7, 1⟩]⟩

/-- C1 witness: the amended theorem applied to the fixture store - a foreign
student and a non-creator teacher get 403, and the student-owner's view of
the IN_PROGRESS attempt contains the joined response entry with its
chosen_option, correct_option, is_correct and points_earned. -/
theorem c1_result_view_witness :
    get_student_attempt_result 100 ⟨6, UserRole.STUDENT, "Y"⟩ dbResp =
      .error ⟨403, "You can only view your own attempt results"⟩ ∧
    get_student_attempt_result 100 ⟨8, UserRole.TEACHER, "X"⟩ dbResp =
      .error ⟨403, "You can only view results for assignments you created"⟩ ∧
    (mkResponseView respA q1 ∈ c1view.responses ∧
     (mkResponseView respA q1).correct_option = q1.correct_option.value ∧
     (mkResponseView respA q1).chosen_option = respA.chosen_option ∧
     (mkResponseView respA q1).is_correct = respA.is_correct ∧
     (mkResponseView respA q1).points_earned = (if respA.is_correct then q1.points else 0)) :=
  ⟨(c1_result_view 100 ⟨6, UserRole.STUDENT, "Y"⟩ dbResp attP (by decide)).1
      (by decide) (by decide),
   (c1_result_view 100 ⟨8, UserRole.TEACHER, "X"⟩ dbResp attP (by decide)).2.1 hw
      (by decide) (by decide) (by decide),
   (c1_result_view 100 stu dbResp attP (by decide)).2.2 c1view (by decide)
      respA (by decide) (by decide) q1 (by decide) (by decide)⟩

/-! Claim C7. -/

/-- The upsert step keeps every response of the attempt linked to a question
of the attempt's assignment. -/
theorem link_answerDB1 (db : DB) (att : Attempt) (q : Question) (payload : AnswerRequest)
    (now : Int)
    (hlink0 : ∀ r ∈ db.responses, r.attempt_id = att.id →
      ∃ qq ∈ db.questions, qq.id = r.question_id ∧ qq.assignment_id = att.assignment_id)
    (hqmem : q ∈ db.questions) (hasg : q.assignment_id = att.assignment_id) :
    ∀ r ∈ (answerDB1 db att q payload now).responses, r.attempt_id = att.id →
      ∃ qq ∈ db.questions, qq.id = r.question_id ∧
        qq.assignment_id = att.assignment_id := by
  intro r hr hratt
  rcases mem_upsertResponses _ _ _ _ _ _ _ hr with hold | ⟨r0, hr0, hkey, heq⟩ | heq
  · exact hlink0 r hold hratt
  · refine ⟨q, hqmem, ?_, hasg⟩
    rw [heq]
    exact (eq_of_beq ((Bool.and_eq_true _ _).mp hkey).2).symm
  · refine ⟨q, hqmem, ?_, hasg⟩
    rw [heq]
    rfl

/-- The upsert step keeps is_correct equal to the comparison of the stored
chosen option with the question's correct option. -/
theorem corr_answerDB1 (db : DB) (att : Attempt) (q : Question) (payload : AnswerRequest)
    (now : Int)
    (hqpw : db.questions.Pairwise (fun a b => a.id ≠ b.id))
    (hcorr0 : ∀ r ∈ db.responses, ∀ qq ∈ db.questions, qq.id = r.question_id →
      r.is_correct = (r.chosen_option == qq.correct_option.value))
    (hqmem : q ∈ db.questions) :
    ∀ r ∈ (answerDB1 db att q payload now).responses, ∀ qq ∈ db.questions,
      qq.id = r.question_id →
      r.is_correct = (r.chosen_option == qq.correct_option.value) := by
  intro r hr qq hqq hid
  rcases mem_upsertResponses _ _ _ _ _ _ _ hr with hold | ⟨r0, hr0, hkey, heq⟩ | heq
  · exact hcorr0 r hold qq hqq hid
  · have hq1 : r.question_id = q.id := by
      rw [heq]
      exact eq_of_beq ((Bool.and_eq_true _ _).mp hkey).2
    have hqqq : qq = q :=
      eq_of_mem_of_key_eq (fun x => x.id) hqpw hqq hqmem
        (by show qq.id = q.id; rw [hid, hq1])
    rw [heq, hqqq]
    rfl
  · have hq1 : r.question_id = q.id := by
      rw [heq]
      rfl
    have hqqq : qq = q :=
      eq_of_mem_of_key_eq (fun x => x.id) hqpw hqq hqmem
        (by show qq.id = q.id; rw [hid, hq1])
    rw [heq, hqqq]
    rfl

/-- C7: after an attempt becomes terminal - through an explicit Submit or
through the auto-submit of the last RecordAnswer - its total_score equals
the specification sum: the points of exactly those questions of the
assignment whose final stored Response has chosen_option equal to the
question's correct_option, unanswered questions contributing zero. -/
theorem c7_total_score (user : User) (now : Int) (db : DB) (hwf : db.wf) :
    (∀ attempt_id attempt res db1,
      db.attempts.find? (fun t => t.id == attempt_id && t.student_id == user.id) = some attempt →
      submit_attempt attempt_id user now db = .ok (res, db1) →
      (res.total_score = specScore db attempt ∧
       (db1.findAttempt attempt.id).map Attempt.total_score = some (specScore db attempt))) ∧
    (∀ attempt_id payload att q res2 db2,
      db.attempts.find? (fun t => t.id == attempt_id && t.student_id == user.id) = some att →
      db.questions.find? (fun x => x.id == payload.question_id) = some q →
      answer_question attempt_id payload user now db = .ok (res2, db2) →
      res2.auto_submitted = true →
      (db2.findAttempt att.id).map Attempt.total_score = some (specScore db2 att)) := by
  obtain ⟨hapw, hqpw, hrpw, hlink, hcorr⟩ := hwf
  constructor
  · intro attempt_id attempt res db1 hfind hok
    have hmem := List.mem_of_find?_eq_some hfind
    have hpred := List.find?_some hfind
    have hid : attempt.id = attempt_id := eq_of_beq ((Bool.and_eq_true _ _).mp hpred).1
    have hlinkA : ∀ r ∈ db.responses, r.attempt_id = attempt.id →
        ∃ q ∈ db.questions, q.id = r.question_id ∧
          q.assignment_id = attempt.assignment_id :=
      fun r hr hratt => hlink r hr attempt hmem hratt.symm
    have hjs : joinScore db attempt_id = specScore db attempt := by
      rw [← hid]
      exact joinScore_eq_specScore db attempt hqpw hrpw hlinkA hcorr
    unfold submit_attempt at hok
    split at hok
    · exact Except.noConfusion hok
    · rename_i att1 heq
      have hatt1 : att1 = attempt := Option.some.inj (heq.symm.trans hfind)
      subst hatt1
      split at hok
      · exact Except.noConfusion hok
      · split at hok
        · exact Except.noConfusion hok
        · dsimp only at hok
          injection Except.ok.inj hok with h1 h2
          constructor
          · rw [← h1]
            exact hjs
          · rw [← h2]
            show ((setAttempt db.attempts att1.id
              (submittedAttempt att1
                (lateStatus (db.assignments.find? (fun a => a.id == att1.assignment_id)) now)
                now (joinScore db attempt_id))).find?
                  (fun t => t.id == att1.id)).map Attempt.total_score = _
            rw [setAttempt_find hmem
              (submittedAttempt att1
                (lateStatus (db.assignments.find? (fun a => a.id == att1.assignment_id)) now)
                now (joinScore db attempt_id)) rfl]
            show some (joinScore db attempt_id) = some (specScore db att1)
            rw [hjs]
  · intro attempt_id payload att q res2 db2 hfind hq hok hauto
    obtain ⟨hv, att', q', hfind', hstat', hq', hasg', hresp, himps⟩ :=
      answer_question_ok_inv _ _ _ _ _ _ _ hok
    have hatt : att' = att := Option.some.inj (hfind'.symm.trans hfind)
    have hqq : q' = q := Option.some.inj (hq'.symm.trans hq)
    subst hatt
    subst hqq
    by_cases hc : countResponses (answerDB1 db att' q' payload now) att'.id ≥
        countQuestions (answerDB1 db att' q' payload now) att'.assignment_id
    · obtain ⟨hres2, hdb2⟩ := himps.1 hc
      subst hdb2
      have hmem := List.mem_of_find?_eq_some hfind'
      show ((setAttempt db.attempts att'.id
        (submittedAttempt att' AttemptStatus.SUBMITTED now
          (joinScore (answerDB1 db att' q' payload now) att'.id))).find?
            (fun t => t.id == att'.id)).map Attempt.total_score = _
      rw [setAttempt_find hmem
        (submittedAttempt att' AttemptStatus.SUBMITTED now
          (joinScore (answerDB1 db att' q' payload now) att'.id)) rfl]
      show some (joinScore (answerDB1 db att' q' payload now) att'.id) =
        some (specScore (answerAutoDB db att' q' payload now) att')
      have hjs2 : joinScore (answerDB1 db att' q' payload now) att'.id =
          specScore (answerDB1 db att' q' payload now) att' := by
        apply joinScore_eq_specScore
        · exact hqpw
        · exact pairwise_upsertResponses _ _ _ _ _ _ hrpw
        · exact link_answerDB1 db att' q' payload now
            (fun r hr hratt => hlink r hr att' hmem hratt.symm)
            (List.mem_of_find?_eq_some hq') hasg'
        · exact corr_answerDB1 db att' q' payload now hqpw hcorr
            (List.mem_of_find?_eq_some hq')
      rw [hjs2]
      rfl
    · obtain ⟨hres2, _⟩ := himps.2 hc
      rw [hres2] at hauto
      exact Bool.noConfusion hauto

/-- C7 witness: the explicit submit of the fixture attempt (one incorrect
answer recorded) reports and stores total_score equal to the specification
sum, and the auto-submitting answer of the last question stores the
specification sum of the post-answer store. -/
theorem c7_total_score_witness :
    ((⟨"Assignment submitted successfully!", AttemptStatus.SUBMITTED, 0, 1, 2, 30, false⟩ :
        SubmitResult).total_score = specScore dbResp attP ∧
     ((⟨[hw], [q1, q2], [⟨100, 1, 5, 0, some 30, 0, 0, AttemptStatus.SUBMITTED⟩],
        [respA], [stu, tea]⟩ : DB).findAttempt attP.id).map Attempt.total_score =
       some (specScore dbResp attP)) ∧
    ((answerAutoDB dbResp attP q2 ⟨11, "A", 8⟩ 9).findAttempt attP.id).map
        Attempt.total_score =
      some (specScore (answerAutoDB dbResp attP q2 ⟨11, "A", 8⟩ 9) attP) :=
  ⟨(c7_total_score stu 30 dbResp (by decide)).1 100 attP
      ⟨"Assignment submitted successfully!", AttemptStatus.SUBMITTED, 0, 1, 2, 30, false⟩
      ⟨[hw], [q1, q2], [⟨100, 1, 5, 0, some 30, 0, 0, AttemptStatus.SUBMITTED⟩],
       [respA], [stu, tea]⟩
      (by decide) (by decide),
   (c7_total_score stu 9 dbResp (by decide)).2 100 ⟨11, "A", 8⟩ attP q2
      ⟨"Answer recorded. Assignment completed and submitted automatically!", true⟩
      (answerAutoDB dbResp attP q2 ⟨11, "A", 8⟩ 9)
      (by decide) (by decide) (by decide) (by decide)⟩

end QuestLearn
